import Mathlib

/-!
Shallow embedding of the typed message/response protocol runtime in
`tools/efro/message.py` (classes `MessageProtocol`, `MessageSender`,
`MessageReceiver`), together with the parts of its environment the module
relies on.  External library code (`json`, `traceback`, `efro.dataclassio`,
`efro.error`) is not part of the repository sources; those pieces are
modelled from the specification and each such definition says so in its
doc comment.  Python exceptions are modelled with an explicit `Except`
monad; `assert` statements raise `AssertionError`, which is an ordinary
`Exception` and is therefore caught by `except Exception` blocks.
-/

set_option linter.unusedVariables false

namespace EfroMessage

/-- Modelled from the spec: the generic structured record that `json.dumps`
and `json.loads` (Python standard library, external to the repository)
serialize and parse.  Payload field values are opaque to the protocol code,
which only ever inspects integers (type ids), strings and mappings. -/
inductive JVal where
  | null : JVal
  | boolean : Bool → JVal
  | num : Int → JVal
  | str : String → JVal
  | obj : List (String × JVal) → JVal

/-- Modelled from the spec: the wire byte encoding.  The spec only requires
a compact serialization of the structured record together with its inverse
parse (both supplied by the external `json` library), so the byte level is
modelled as the structured record itself, with `dumps`/`loads` the identity
pair.  A byte string that is not well formed JSON corresponds to no `Bytes`
value; such input makes `json.loads` raise, which on the receiver side is
one more exception inside the `try` block, behaviourally identical to a
parsed value failing the `isinstance(msgfull, dict)` assertion (a non-`obj`
`Bytes` value below). -/
abbrev Bytes := JVal

/-- First-match association-list lookup (Python `dict.get` semantics for
the unique-key dictionaries the protocol builds). -/
def alookup {κ β : Type} [DecidableEq κ] (l : List (κ × β)) (k : κ) : Option β :=
  match l with
  | [] => none
  | (k2, v) :: rest => if k2 = k then some v else alookup rest k

/-- Python dictionary assignment `d[k] = v`: replace the value in place if
the key is present, otherwise append the new pair at the end (insertion
order is preserved). -/
def dictSet {κ β : Type} [DecidableEq κ] (k : κ) (v : β) (l : List (κ × β)) : List (κ × β) :=
  if l.any (fun pr => pr.1 = k) then
    l.map (fun pr => if pr.1 = k then (k, v) else pr)
  else
    l ++ [(k, v)]

/-- Key removal, as performed by Python `dict.pop` after a successful
lookup. -/
def eraseKey {β : Type} (l : List (String × β)) (k : String) : List (String × β) :=
  l.filter (fun pr => pr.1 ≠ k)

/-- A message or response class as the protocol sees it: its base name
(`__name__`), its serialized field storage keys in declaration order (the
`IOAttrs` storage names of its dataclass fields), and whether it is a
subclass of `Message` and of `Response`. -/
structure TypeDecl where
  name : String
  schema : List String
  isMessage : Bool
  isResponse : Bool
deriving DecidableEq, Inhabited, Repr

/-- A dataclass instance: its class together with its serialized field
values, keyed by storage name in schema order. -/
structure Inst where
  ty : TypeDecl
  fields : List (String × JVal)

/-- A well-formed instance of its class: one value per schema field, in
schema order, with no duplicate storage keys (Python dataclass fields are
unique by construction). -/
def Inst.wf (inst : Inst) : Prop :=
  inst.fields.map Prod.fst = inst.ty.schema ∧ inst.ty.schema.Nodup

instance (inst : Inst) : Decidable inst.wf := by
  unfold Inst.wf; infer_instance

/-- The `ErrorType` enum: classification of a remote handling error. -/
inductive ErrorType where
  | other : ErrorType
  | clean : ErrorType
deriving DecidableEq, Repr

/-- Wire value of the `ErrorType` enum (its integer enum value, the form
`efro.dataclassio` stores it in). -/
def ErrorType.toWire : ErrorType → Int
  | .other => 0
  | .clean => 1

/-- Modelled from the spec: the Python exceptions the module raises or
catches.  `efro.error` (not in the repository sources) supplies
`CleanError`, an error kind shown verbatim to the user, and `RemoteError`,
the opaque generic remote error; both carry a message string and neither
is a subclass of the other. -/
inductive PyExc where
  | cleanError : String → PyExc
  | remoteError : String → PyExc
  | typeError : String → PyExc
  | valueError : String → PyExc
  | runtimeError : String → PyExc
  | keyError : PyExc
  | assertionError : PyExc
deriving DecidableEq, Repr

/-- The `isinstance(exc, CleanError)` test. -/
def PyExc.isClean : PyExc → Bool
  | .cleanError _ => true
  | _ => false

/-- The `str(exc)` text of an exception. -/
def PyExc.text : PyExc → String
  | .cleanError s => s
  | .remoteError s => s
  | .typeError s => s
  | .valueError s => s
  | .runtimeError s => s
  | .keyError => ""
  | .assertionError => ""

/-- Modelled from the spec: `traceback.format_exc()` (Python standard
library), the stringified stack trace of the active exception.  What
matters to the claims is that it carries the exception detail; it is
modelled as a string that embeds the exception text. -/
def format_exc (exc : PyExc) : String :=
  "Traceback (most recent call last): " ++ exc.text

/-- The `ErrorResponse` dataclass: storage keys `m` (error_message) and
`t` (error_type), per its `IOAttrs` annotations. -/
def ErrorResponseDecl : TypeDecl :=
  { name := "ErrorResponse", schema := ["m", "t"], isMessage := false, isResponse := true }

/-- The `EmptyResponse` dataclass: no fields. -/
def EmptyResponseDecl : TypeDecl :=
  { name := "EmptyResponse", schema := [], isMessage := false, isResponse := true }

/-- Construct an `ErrorResponse` instance with the given message and
error type. -/
def errInst (s : String) (t : ErrorType) : Inst :=
  { ty := ErrorResponseDecl, fields := [("m", JVal.str s), ("t", JVal.num t.toWire)] }

/-- Construct an `EmptyResponse` instance. -/
def emptyInst : Inst :=
  { ty := EmptyResponseDecl, fields := [] }

/-- Modelled from the spec: `efro.dataclassio.dataclass_to_dict` (not in
the repository sources) serializes a prepped dataclass instance to a
mapping from storage key to value, one entry per schema field in schema
order. -/
def dataclass_to_dict (inst : Inst) : List (String × JVal) :=
  inst.fields

/-- Collect one value per schema key from a decoded record; `none` when a
required field is missing. -/
def fieldsFromDict : List String → List (String × JVal) → Option (List (String × JVal))
  | [], _ => some []
  | k :: ks, d =>
    match alookup d k, fieldsFromDict ks d with
    | some v, some rest => some ((k, v) :: rest)
    | _, _ => none

/-- Modelled from the spec: `efro.dataclassio.dataclass_from_dict` (not in
the repository sources) reconstructs a typed instance from a decoded
record: unknown extra keys are ignored for forward compatibility and a
missing required field fails the decode. -/
def dataclass_from_dict (ty : TypeDecl) (d : List (String × JVal)) : Except PyExc Inst :=
  match fieldsFromDict ty.schema d with
  | some fs => .ok { ty := ty, fields := fs }
  | none => .error (.valueError "missing required field")

/-- The `MessageProtocol` state after construction: the four registry
dictionaries and the policy flags (`_type_key` and the three booleans). -/
structure MessageProtocol where
  message_types_by_id : List (Int × TypeDecl)
  message_ids_by_type : List (TypeDecl × Int)
  response_types_by_id : List (Int × TypeDecl)
  response_ids_by_type : List (TypeDecl × Int)
  type_key : Option String
  preserve_clean_errors : Bool
  log_remote_exceptions : Bool
  trusted_sender : Bool
deriving Inhabited

/-- Model of `MessageProtocol._encode`: look up the id of the instance type, build
the serialized record, embed the id (type-key mode or the two-key
envelope) and serialize compactly. -/
def MessageProtocol.encodeInner (p : MessageProtocol) (message : Inst)
    (ids_by_type : List (TypeDecl × Int)) (opname : String) : Except PyExc Bytes :=
  match alookup ids_by_type message.ty with
  | none => .error (.typeError (opname ++ " type is not registered in protocol"))
  | some m_id =>
    let msgdict := dataclass_to_dict message
    match p.type_key with
    | some k =>
      if msgdict.any (fun pr => pr.1 = k) then
        .error (.runtimeError "Type-key found in msg")
      else
        .ok (JVal.obj (dictSet k (JVal.num m_id) msgdict))
    | none =>
      .ok (JVal.obj [("m", JVal.obj msgdict), ("t", JVal.num m_id)])

/-- Model of `MessageProtocol.encode_message`. -/
def MessageProtocol.encode_message (p : MessageProtocol) (message : Inst) : Except PyExc Bytes :=
  p.encodeInner message p.message_ids_by_type "message"

/-- Model of `MessageProtocol.encode_response`. -/
def MessageProtocol.encode_response (p : MessageProtocol) (response : Inst) : Except PyExc Bytes :=
  p.encodeInner response p.response_ids_by_type "response"

/-- The id-recovery step of `_decode`: `pop` the type-key field in
type-key mode (a missing key raises `KeyError`), otherwise read the `t`
and `m` envelope keys; assert the id is an integer and the payload a
mapping. -/
def recoverIdAndDict (type_key : Option String) (msgfull : List (String × JVal)) :
    Except PyExc (Int × List (String × JVal)) :=
  match type_key with
  | some k =>
    match alookup msgfull k with
    | none => .error .keyError
    | some (JVal.num n) => .ok (n, eraseKey msgfull k)
    | some _ => .error .assertionError
  | none =>
    match alookup msgfull "t", alookup msgfull "m" with
    | some (JVal.num n), some (JVal.obj d) => .ok (n, d)
    | _, _ => .error .assertionError

/-- The special-case handling at the tail of `_decode`: `EmptyResponse`
becomes `none`; `ErrorResponse` raises locally (`CleanError` for a CLEAN
error under `preserve_clean_errors`, `RemoteError` otherwise); everything
else is returned as decoded. -/
def decodeSpecialCases (p : MessageProtocol) (opname : String) (out : Inst) :
    Except PyExc (Option Inst) :=
  if out.ty = EmptyResponseDecl then
    .ok none
  else if out.ty = ErrorResponseDecl then
    if opname ≠ "response" then
      .error .assertionError
    else
      match alookup out.fields "m", alookup out.fields "t" with
      | some (JVal.str emsg), some (JVal.num etype) =>
        if p.preserve_clean_errors ∧ etype = 1 then
          .error (.cleanError emsg)
        else if etype = 0 ∨ etype = 1 then
          .error (.remoteError emsg)
        else
          .error (.valueError "invalid ErrorType value")
      | _, _ => .error (.valueError "invalid ErrorResponse payload")
  else
    .ok (some out)

/-- Model of `MessageProtocol._decode`: parse (asserting the result is a mapping),
recover the type id and payload record, resolve the id against the
registry, rebuild the typed instance, then apply the special cases. -/
def MessageProtocol.decodeInner (p : MessageProtocol) (data : Bytes)
    (types_by_id : List (Int × TypeDecl)) (opname : String) : Except PyExc (Option Inst) :=
  match data with
  | JVal.obj msgfull =>
    match recoverIdAndDict p.type_key msgfull with
    | .error e => .error e
    | .ok (m_id, msgdict) =>
      match alookup types_by_id m_id with
      | none => .error (.typeError ("Got unregistered " ++ opname ++ " type id"))
      | some msgtype =>
        match dataclass_from_dict msgtype msgdict with
        | .error e => .error e
        | .ok out => decodeSpecialCases p opname out
  | _ => .error .assertionError

/-- Model of `MessageProtocol.decode_message`, including its trailing
`assert isinstance(out, Message)`. -/
def MessageProtocol.decode_message (p : MessageProtocol) (data : Bytes) : Except PyExc Inst :=
  match p.decodeInner data p.message_types_by_id "message" with
  | .error e => .error e
  | .ok (some inst) => if inst.ty.isMessage then .ok inst else .error .assertionError
  | .ok none => .error .assertionError

/-- Model of `MessageProtocol.decode_response`, including its trailing
`assert isinstance(out, (Response, type(None)))`. -/
def MessageProtocol.decode_response (p : MessageProtocol) (data : Bytes) :
    Except PyExc (Option Inst) :=
  match p.decodeInner data p.response_types_by_id "response" with
  | .error e => .error e
  | .ok (some inst) => if inst.ty.isResponse then .ok (some inst) else .error .assertionError
  | .ok none => .ok none

/-- The registration loop of `MessageProtocol.__init__` over the
`message_types` dictionary: each id must be a non-negative integer
(`assert m_id >= 0`), each type a prepped `Message` subclass, and each id
unassigned so far; entries populate `message_types_by_id` (fresh keys, so
appends) and `message_ids_by_type` (dictionary assignment). -/
def regMessages (by_id : List (Int × TypeDecl)) (by_type : List (TypeDecl × Int)) :
    List (Int × TypeDecl) → Except PyExc (List (Int × TypeDecl) × List (TypeDecl × Int))
  | [] => .ok (by_id, by_type)
  | (m_id, m_type) :: rest =>
    if m_id < 0 then .error .assertionError
    else if ¬ m_type.isMessage then .error .assertionError
    else if (alookup by_id m_id).isSome then .error .assertionError
    else regMessages (by_id ++ [(m_id, m_type)]) (dictSet m_type m_id by_type) rest

/-- The registration loop of `MessageProtocol.__init__` over the
`response_types` dictionary (same shape, requiring `Response`
subclasses). -/
def regResponses (by_id : List (Int × TypeDecl)) (by_type : List (TypeDecl × Int)) :
    List (Int × TypeDecl) → Except PyExc (List (Int × TypeDecl) × List (TypeDecl × Int))
  | [] => .ok (by_id, by_type)
  | (r_id, r_type) :: rest =>
    if r_id < 0 then .error .assertionError
    else if ¬ r_type.isResponse then .error .assertionError
    else if (alookup by_id r_id).isSome then .error .assertionError
    else regResponses (by_id ++ [(r_id, r_type)]) (dictSet r_type r_id by_type) rest

/-- The local `_reg_if_not` helper of `MessageProtocol.__init__`:
auto-register a common response type at a fixed reserved id unless the
caller already registered that type explicitly. -/
def regIfNot (reg_tp : TypeDecl) (reg_id : Int)
    (by_id : List (Int × TypeDecl)) (by_type : List (TypeDecl × Int)) :
    Except PyExc (List (Int × TypeDecl) × List (TypeDecl × Int)) :=
  if (alookup by_type reg_tp).isSome then .ok (by_id, by_type)
  else if (alookup by_id reg_id).isSome then .error .assertionError
  else .ok (by_id ++ [(reg_id, reg_tp)], by_type ++ [(reg_tp, reg_id)])

/-- Per-message checks of the `__debug__` block: `get_response_types()`
must return a non-empty list without duplicates.  `grt` is the
`get_response_types` classmethod table. -/
def checkMsgResponseLists (grt : TypeDecl → List TypeDecl) :
    List (Int × TypeDecl) → Except PyExc Unit
  | [] => .ok ()
  | (_, m_type) :: rest =>
    let m_rtypes := grt m_type
    if m_rtypes = [] then .error .assertionError
    else if ¬ m_rtypes.Nodup then .error .assertionError
    else checkMsgResponseLists grt rest

/-- Second loop of the `__debug__` block: every response type any message
can produce must be a `Response` subclass and must be present in the
response registry. -/
def checkResponseCoverage (by_type : List (TypeDecl × Int)) :
    List TypeDecl → Except PyExc Unit
  | [] => .ok ()
  | cls :: rest =>
    if ¬ cls.isResponse then .error .assertionError
    else if (alookup by_type cls).isNone then
      .error (.valueError "Possible response type was not included in response_types")
    else checkResponseCoverage by_type rest

/-- The set of distinct base names among the keys of
`message_ids_by_type`, as counted by the `__debug__` name-uniqueness
check. -/
def msgTypeNames (by_type : List (TypeDecl × Int)) : List String :=
  (by_type.map (fun pr => pr.1.name)).dedup

/-- Model of `MessageProtocol.__init__`: populate the four registries, auto-register
`ErrorResponse` at id -1 and `EmptyResponse` at id -2 when absent, then run
the `__debug__` validation (response coverage and the message-type name
uniqueness check) and store the policy flags.  The model runs with
assertions enabled, as the repository does in its normal debug-mode
deployment. -/
def MessageProtocol.init (grt : TypeDecl → List TypeDecl)
    (message_types : List (Int × TypeDecl)) (response_types : List (Int × TypeDecl))
    (type_key : Option String) (preserve_clean_errors : Bool)
    (log_remote_exceptions : Bool) (trusted_sender : Bool) :
    Except PyExc MessageProtocol :=
  match regMessages [] [] message_types with
  | .error e => .error e
  | .ok (m_by_id, m_by_type) =>
    match regResponses [] [] response_types with
    | .error e => .error e
    | .ok (r_by_id1, r_by_type1) =>
      match regIfNot ErrorResponseDecl (-1) r_by_id1 r_by_type1 with
      | .error e => .error e
      | .ok (r_by_id2, r_by_type2) =>
        match regIfNot EmptyResponseDecl (-2) r_by_id2 r_by_type2 with
        | .error e => .error e
        | .ok (r_by_id, r_by_type) =>
          match checkMsgResponseLists grt message_types with
          | .error e => .error e
          | .ok _ =>
            match checkResponseCoverage r_by_type
                ((message_types.flatMap (fun pr => grt pr.2)).dedup) with
            | .error e => .error e
            | .ok _ =>
              if (msgTypeNames m_by_type).length ≠ message_types.length then
                .error (.valueError "message_types contains duplicate names")
              else
                .ok { message_types_by_id := m_by_id, message_ids_by_type := m_by_type,
                      response_types_by_id := r_by_id, response_ids_by_type := r_by_type,
                      type_key := type_key, preserve_clean_errors := preserve_clean_errors,
                      log_remote_exceptions := log_remote_exceptions,
                      trusted_sender := trusted_sender }

/-- A registered handler as `MessageReceiver.register_handler` sees it
after inspecting the callable: the message type named by its `msg`
annotation, its declared return annotation (one or more types, where
Python `None` stands for no value), and the callable itself.  A handler
may return no value (`none`) or raise any exception. -/
inductive RetAnn where
  | noneRet : RetAnn
  | retTy : TypeDecl → RetAnn
deriving DecidableEq

/-- A handler callable together with its annotations. -/
structure Handler where
  msgtype : TypeDecl
  declaredReturns : List RetAnn
  run : Inst → Except PyExc (Option Inst)

/-- The `None -> EmptyResponse` translation applied to the declared
return annotations of a handler. -/
def mapReturns (l : List RetAnn) : List TypeDecl :=
  l.map (fun r => match r with | .noneRet => EmptyResponseDecl | .retTy t => t)

/-- Python `set(a) == set(b)` on lists of types. -/
def setEqTD (a b : List TypeDecl) : Bool :=
  a.all (fun t => b.contains t) && b.all (fun t => a.contains t)

/-- Model of `MessageReceiver.register_handler`: after the reflection step has
produced the message type and return annotations of the handler (modelled as
the `Handler` fields), assert the message type subclasses `Message`, check
it is registered in the protocol, check it has no handler yet, check the
declared return set exactly equals `get_response_types()`, then store the
handler. -/
def register_handler (grt : TypeDecl → List TypeDecl) (p : MessageProtocol)
    (handlers : List (TypeDecl × Handler)) (h : Handler) :
    Except PyExc (List (TypeDecl × Handler)) :=
  if ¬ h.msgtype.isMessage then .error .assertionError
  else
    let responsetypes := mapReturns h.declaredReturns
    if (alookup p.message_ids_by_type h.msgtype).isNone then
      .error (.typeError "Message type is not registered in this Protocol")
    else if (alookup handlers h.msgtype).isSome then
      .error (.typeError "Message type already has a registered handler")
    else if ¬ setEqTD responsetypes (grt h.msgtype) then
      .error (.typeError "Provided response types do not match the set expected by message type")
    else
      .ok (handlers ++ [(h.msgtype, h)])

/-- The loop body of `MessageReceiver.validate`.  Note the control flow of
the source: a missing handler logs a warning when `warn_only` is set and
then falls through to the unconditional `raise TypeError(msg)` on the next
line (the raise is not guarded by an `else`), so the loop raises in both
modes.  Logging has no observable effect in the model. -/
def validateLoop (handlers : List (TypeDecl × Handler)) (warn_only : Bool) :
    List (TypeDecl × Int) → Except PyExc Unit
  | [] => .ok ()
  | (msgtype, _) :: rest =>
    if msgtype.isResponse then validateLoop handlers warn_only rest
    else if (alookup handlers msgtype).isSome then validateLoop handlers warn_only rest
    else .error (.typeError "Protocol message not handled by receiver")

/-- Model of `MessageReceiver.validate`. -/
def validate (p : MessageProtocol) (handlers : List (TypeDecl × Handler))
    (warn_only : Bool) : Except PyExc Unit :=
  validateLoop handlers warn_only p.message_ids_by_type

/-- The `try` body of `MessageReceiver.handle_raw_message`: decode the
incoming message, assert it is a `Message`, look up and invoke the
handler, normalize a `None` result to `EmptyResponse`, run the defensive
assertions on the result, and encode it. -/
def tryHandleRawMessage (grt : TypeDecl → List TypeDecl) (p : MessageProtocol)
    (handlers : List (TypeDecl × Handler)) (msg : Bytes) : Except PyExc Bytes :=
  match p.decode_message msg with
  | .error e => .error e
  | .ok msg_decoded =>
    let msgtype := msg_decoded.ty
    if ¬ msgtype.isMessage then .error .assertionError
    else
      match alookup handlers msgtype with
      | none => .error (.runtimeError "Got unhandled message type")
      | some handler =>
        match handler.run msg_decoded with
        | .error e => .error e
        | .ok response0 =>
          let response := response0.getD emptyInst
          if ¬ response.ty.isResponse then .error .assertionError
          else if response.ty = ErrorResponseDecl then .error .assertionError
          else if ¬ (grt msgtype).contains response.ty then .error .assertionError
          else p.encode_response response

/-- The `ErrorResponse` built by the `except` block of
`handle_raw_message`: a CLEAN response carrying `str(exc)` for a
`CleanError` under `preserve_clean_errors`, otherwise an OTHER response
carrying the formatted traceback for a trusted sender and the fixed
generic string for an untrusted one. -/
def mkErrResponse (p : MessageProtocol) (exc : PyExc) : Inst :=
  if exc.isClean && p.preserve_clean_errors then
    errInst exc.text ErrorType.clean
  else
    errInst (if p.trusted_sender then format_exc exc else "An unknown error has occurred.")
      ErrorType.other

/-- Model of `MessageReceiver.handle_raw_message`: run the `try` body; on any
exception, optionally log it (no observable effect) and encode the
`ErrorResponse` built by the `except` block instead.  The final
`encode_response` call sits inside the `except` block, so an exception it
raises propagates out. -/
def handle_raw_message (grt : TypeDecl → List TypeDecl) (p : MessageProtocol)
    (handlers : List (TypeDecl × Handler)) (msg : Bytes) : Except PyExc Bytes :=
  match tryHandleRawMessage grt p handlers msg with
  | .ok b => .ok b
  | .error exc => p.encode_response (mkErrResponse p exc)

/-- Model of `MessageSender.send` with a registered raw-send callback: encode the
message, invoke the transport, decode the response, and run the defensive
response-type assertion (a `None` response is accepted unconditionally). -/
def send (grt : TypeDecl → List TypeDecl) (p : MessageProtocol)
    (transport : Bytes → Except PyExc Bytes) (message : Inst) :
    Except PyExc (Option Inst) :=
  match p.encode_message message with
  | .error e => .error e
  | .ok msg_encoded =>
    match transport msg_encoded with
    | .error e => .error e
    | .ok response_encoded =>
      match p.decode_response response_encoded with
      | .error e => .error e
      | .ok none => .ok none
      | .ok (some r) =>
        if (grt message.ty).contains r.ty then .ok (some r)
        else .error .assertionError

/-- Boolean success test for an `Except` result. -/
def exceptIsOk {ε α : Type} : Except ε α → Bool
  | .ok _ => true
  | .error _ => false

/-- Extract the protocol from a successful construction (used only to name
concrete protocols in examples below; the constructions succeed). -/
def protoOf : Except PyExc MessageProtocol → MessageProtocol
  | .ok p => p
  | .error _ => default

/-- A sample message type: `Ping`, one field stored as `msg`. -/
def PingDecl : TypeDecl :=
  { name := "Ping", schema := ["msg"], isMessage := true, isResponse := false }

/-- A second sample message type with the same base name as `Ping` but a
different schema (a distinct class whose `__name__` collides). -/
def PingCloneDecl : TypeDecl :=
  { name := "Ping", schema := ["x"], isMessage := true, isResponse := false }

/-- A sample response type: `Pong`, one field stored as `reply`. -/
def PongDecl : TypeDecl :=
  { name := "Pong", schema := ["reply"], isMessage := false, isResponse := true }

/-- A response class whose base name collides with the message class
`Ping`. -/
def PingNameRespDecl : TypeDecl :=
  { name := "Ping", schema := ["r"], isMessage := false, isResponse := true }

/-- Two distinct sample response classes sharing the base name `Dup`. -/
def DupADecl : TypeDecl :=
  { name := "Dup", schema := ["a"], isMessage := false, isResponse := true }

/-- Second of the two name-colliding response classes. -/
def DupBDecl : TypeDecl :=
  { name := "Dup", schema := ["b"], isMessage := false, isResponse := true }

/-- A message class that is also a `Response` subclass (multiple
inheritance from both bases). -/
def HybridDecl : TypeDecl :=
  { name := "Hybrid", schema := [], isMessage := true, isResponse := true }

/-- The `get_response_types` classmethod table for the samples: `Ping`
declares `[Pong]`; every other message keeps the default
`[EmptyResponse]`. -/
def grtSample (t : TypeDecl) : List TypeDecl :=
  if t = PingDecl then [PongDecl] else [EmptyResponseDecl]

/-- A protocol that registers `ErrorResponse` explicitly at id 5. -/
def pExplicitErr : MessageProtocol :=
  protoOf (MessageProtocol.init grtSample [(0, PingDecl)]
    [(5, ErrorResponseDecl), (0, PongDecl)] none true true false)

/-- A concrete `Ping` instance. -/
def pingInst : Inst :=
  { ty := PingDecl, fields := [("msg", JVal.str "hello")] }

/-- A concrete `Pong` instance. -/
def pongInst : Inst :=
  { ty := PongDecl, fields := [("reply", JVal.str "pong")] }

/-- A basic sample protocol: `Ping` at message id 0, `Pong` at response
id 0, default flags. -/
def pBasic : MessageProtocol :=
  protoOf (MessageProtocol.init grtSample [(0, PingDecl)] [(0, PongDecl)] none true true false)

/-- The basic protocol with `preserve_clean_errors` disabled. -/
def pNoClean : MessageProtocol :=
  protoOf (MessageProtocol.init grtSample [(0, PingDecl)] [(0, PongDecl)] none false true false)

/-- The basic protocol with `trusted_sender` enabled. -/
def pTrusted : MessageProtocol :=
  protoOf (MessageProtocol.init grtSample [(0, PingDecl)] [(0, PongDecl)] none true true true)

/-- An empty protocol whose `type_key` is the string `m`, colliding with
the wire storage key of `ErrorResponse.error_message`. -/
def pTypeKeyM : MessageProtocol :=
  protoOf (MessageProtocol.init grtSample [] [] (some "m") true true false)

/-- A protocol whose message registry holds the `Hybrid` message-and-
response class. -/
def pHybrid : MessageProtocol :=
  protoOf (MessageProtocol.init grtSample [(0, HybridDecl), (1, PingDecl)] [(0, PongDecl)]
    none true true false)

/-- A handler for `Ping` declared to return `Pong`, answering every ping
with a fixed pong. -/
def pingHandler : Handler :=
  { msgtype := PingDecl, declaredReturns := [RetAnn.retTy PongDecl],
    run := fun _ => .ok (some pongInst) }

/-- A handler for `Ping` declared to return `Pong` that raises the given
exception. -/
def raisingHandler (exc : PyExc) : Handler :=
  { msgtype := PingDecl, declaredReturns := [RetAnn.retTy PongDecl],
    run := fun _ => .error exc }

section AListLemmas

variable {κ β : Type} [DecidableEq κ]

lemma alookup_eq_none_of_forall {l : List (κ × β)} {k : κ}
    (h : ∀ pr ∈ l, pr.1 ≠ k) : alookup l k = none := by
  induction l with
  | nil => rfl
  | cons hd tl ih =>
    have hhd : hd.1 ≠ k := h hd (by simp)
    simp only [alookup]
    rw [if_neg hhd]
    exact ih (fun pr hpr => h pr (by simp [hpr]))

lemma alookup_append_of_none {l1 l2 : List (κ × β)} {k : κ}
    (h : alookup l1 k = none) : alookup (l1 ++ l2) k = alookup l2 k := by
  induction l1 with
  | nil => rfl
  | cons hd tl ih =>
    simp only [alookup] at h ⊢
    by_cases hk : hd.1 = k
    · rw [if_pos hk] at h; exact absurd h (by simp)
    · rw [if_neg hk] at h ⊢
      exact ih h

lemma alookup_append_of_some {l1 l2 : List (κ × β)} {k : κ} {v : β}
    (h : alookup l1 k = some v) : alookup (l1 ++ l2) k = some v := by
  induction l1 with
  | nil => simp [alookup] at h
  | cons hd tl ih =>
    simp only [alookup] at h ⊢
    by_cases hk : hd.1 = k
    · rw [if_pos hk] at h ⊢; exact h
    · rw [if_neg hk] at h ⊢; exact ih h

lemma alookup_map_replace_ne {k k2 : κ} (v : β) (l : List (κ × β)) (h : k2 ≠ k) :
    alookup (l.map (fun pr => if pr.1 = k then (k, v) else pr)) k2 = alookup l k2 := by
  induction l with
  | nil => rfl
  | cons hd tl ih =>
    simp only [List.map_cons]
    by_cases hhd : hd.1 = k
    · rw [if_pos hhd]
      simp only [alookup]
      rw [if_neg (fun hk => h hk.symm), if_neg (fun hk => h (hhd ▸ hk).symm)]
      exact ih
    · rw [if_neg hhd]
      simp only [alookup]
      by_cases hk2 : hd.1 = k2
      · rw [if_pos hk2, if_pos hk2]
      · rw [if_neg hk2, if_neg hk2]
        exact ih

lemma alookup_map_replace_self {k : κ} (v : β) {l : List (κ × β)}
    (h : l.any (fun pr => pr.1 = k)) :
    alookup (l.map (fun pr => if pr.1 = k then (k, v) else pr)) k = some v := by
  induction l with
  | nil => simp at h
  | cons hd tl ih =>
    simp only [List.map_cons]
    by_cases hhd : hd.1 = k
    · rw [if_pos hhd]
      simp [alookup]
    · rw [if_neg hhd]
      simp only [alookup, if_neg hhd]
      apply ih
      simp only [List.any_cons, hhd] at h
      simpa using h

lemma alookup_dictSet (k k2 : κ) (v : β) (l : List (κ × β)) :
    alookup (dictSet k v l) k2 = if k2 = k then some v else alookup l k2 := by
  unfold dictSet
  by_cases hany : l.any (fun pr => pr.1 = k)
  · rw [if_pos hany]
    by_cases hk : k2 = k
    · subst hk; rw [if_pos rfl]; exact alookup_map_replace_self v hany
    · rw [if_neg hk]; exact alookup_map_replace_ne v l hk
  · rw [if_neg hany]
    have hnone : alookup l k = none := by
      apply alookup_eq_none_of_forall
      intro pr hpr hk
      exact hany (List.any_eq_true.mpr ⟨pr, hpr, by simp [hk]⟩)
    by_cases hk : k2 = k
    · subst hk
      rw [if_pos rfl, alookup_append_of_none hnone]
      simp [alookup]
    · rw [if_neg hk]
      cases hl : alookup l k2 with
      | some w => exact alookup_append_of_some hl
      | none =>
        rw [alookup_append_of_none hl]
        simp only [alookup]
        rw [if_neg (fun h => hk h.symm)]

lemma eraseKey_of_forall_ne {l : List (String × β)} {k : String}
    (h : ∀ pr ∈ l, pr.1 ≠ k) : eraseKey l k = l := by
  unfold eraseKey
  exact List.filter_eq_self.mpr (fun pr hpr => by simpa using h pr hpr)

lemma eraseKey_append_single {l : List (String × β)} {k : String} {v : β}
    (h : ∀ pr ∈ l, pr.1 ≠ k) : eraseKey (l ++ [(k, v)]) k = l := by
  unfold eraseKey
  rw [List.filter_append]
  have h1 : List.filter (fun pr => decide (pr.1 ≠ k)) l = l :=
    List.filter_eq_self.mpr (fun pr hpr => by simpa using h pr hpr)
  have h2 : List.filter (fun pr : String × β => decide (pr.1 ≠ k)) [(k, v)] = [] := by
    simp [List.filter]
  rw [h1, h2, List.append_nil]

end AListLemmas

section FieldsLemmas

lemma fieldsFromDict_cons_not_mem {ks : List String} {k : String} {v : JVal}
    {d : List (String × JVal)} (h : k ∉ ks) :
    fieldsFromDict ks ((k, v) :: d) = fieldsFromDict ks d := by
  induction ks with
  | nil => rfl
  | cons a as ih =>
    have hak : k ≠ a := fun hk => h (hk ▸ List.mem_cons_self a as)
    have has : k ∉ as := fun hk => h (List.mem_cons_of_mem a hk)
    simp only [fieldsFromDict, alookup, if_neg hak, ih has]

lemma fieldsFromDict_self {fields : List (String × JVal)} {schema : List String}
    (hkeys : fields.map Prod.fst = schema) (hnd : schema.Nodup) :
    fieldsFromDict schema fields = some fields := by
  induction fields generalizing schema with
  | nil =>
    subst hkeys
    rfl
  | cons hd tl ih =>
    obtain ⟨k, v⟩ := hd
    subst hkeys
    simp only [List.map_cons] at hnd
    have hknotin : k ∉ tl.map Prod.fst := (List.nodup_cons.mp hnd).1
    have hndtl : (tl.map Prod.fst).Nodup := (List.nodup_cons.mp hnd).2
    simp only [List.map_cons, fieldsFromDict, alookup, if_pos rfl]
    rw [fieldsFromDict_cons_not_mem hknotin, ih rfl hndtl]
    simp

lemma alist_ext {l1 l2 : List (String × JVal)}
    (hk : l1.map Prod.fst = l2.map Prod.fst) (hnd : (l1.map Prod.fst).Nodup)
    (hl : ∀ k, alookup l1 k = alookup l2 k) : l1 = l2 := by
  induction l1 generalizing l2 with
  | nil =>
    cases l2 with
    | nil => rfl
    | cons hd2 tl2 => simp at hk
  | cons hd tl ih =>
    cases l2 with
    | nil => simp at hk
    | cons hd2 tl2 =>
      obtain ⟨k, v⟩ := hd
      obtain ⟨k2, v2⟩ := hd2
      simp only [List.map_cons, List.cons.injEq] at hk
      obtain ⟨hkk, htl⟩ := hk
      subst hkk
      simp only [List.map_cons, List.nodup_cons] at hnd
      obtain ⟨hknotin, hndtl⟩ := hnd
      have hv : v = v2 := by
        have := hl k
        simp only [alookup, if_pos rfl] at this
        exact Option.some.inj this
      subst hv
      have htails : ∀ k3, alookup tl k3 = alookup tl2 k3 := by
        intro k3
        by_cases hk3 : k3 = k
        · subst hk3
          rw [alookup_eq_none_of_forall, alookup_eq_none_of_forall]
          · intro pr hpr hpk
            exact hknotin (htl ▸ (hpk ▸ List.mem_map_of_mem Prod.fst hpr))
          · intro pr hpr hpk
            exact hknotin (hpk ▸ List.mem_map_of_mem Prod.fst hpr)
        · have := hl k3
          simp only [alookup, if_neg (fun h : k = k3 => hk3 h.symm)] at this
          exact this
      exact congrArg (List.cons (k, v)) (ih htl hndtl htails)

end FieldsLemmas

section CodecLemmas

lemma dictSet_eq_append {κ β : Type} [DecidableEq κ] {k : κ} {v : β} {l : List (κ × β)}
    (h : ¬ l.any (fun pr => pr.1 = k)) : dictSet k v l = l ++ [(k, v)] := by
  unfold dictSet
  rw [if_neg h]

lemma forall_ne_of_not_any {κ β : Type} [DecidableEq κ] {k : κ} {l : List (κ × β)}
    (h : ¬ l.any (fun pr => pr.1 = k)) : ∀ pr ∈ l, pr.1 ≠ k := by
  intro pr hpr hk
  exact h (List.any_eq_true.mpr ⟨pr, hpr, by simp [hk]⟩)

lemma decodeInner_of_encodeInner {p : MessageProtocol} {m : Inst} {i : Int} {b : Bytes}
    {ids_by_type : List (TypeDecl × Int)} {types_by_id : List (Int × TypeDecl)} {opname : String}
    (hwf : m.wf)
    (hne1 : m.ty ≠ EmptyResponseDecl) (hne2 : m.ty ≠ ErrorResponseDecl)
    (hid : alookup ids_by_type m.ty = some i)
    (hback : alookup types_by_id i = some m.ty)
    (henc : p.encodeInner m ids_by_type opname = .ok b) :
    p.decodeInner b types_by_id opname = .ok (some m) := by
  obtain ⟨hkeys, hnd⟩ := hwf
  unfold MessageProtocol.encodeInner at henc
  rw [hid] at henc
  cases htk : p.type_key with
  | none =>
    rw [htk] at henc
    simp only [dataclass_to_dict, Except.ok.injEq] at henc
    subst henc
    have ht : alookup [("m", JVal.obj m.fields), ("t", JVal.num i)] "t"
        = some (JVal.num i) := rfl
    have hm : alookup [("m", JVal.obj m.fields), ("t", JVal.num i)] "m"
        = some (JVal.obj m.fields) := rfl
    unfold MessageProtocol.decodeInner recoverIdAndDict
    rw [htk]
    simp only [ht, hm, hback]
    simp only [dataclass_from_dict, fieldsFromDict_self hkeys hnd]
    simp only [decodeSpecialCases]
    simp [hne1, hne2]
  | some k =>
    rw [htk] at henc
    simp only [dataclass_to_dict] at henc
    by_cases hany : m.fields.any (fun pr => pr.1 = k)
    · rw [if_pos hany] at henc
      exact absurd henc (by simp)
    · rw [if_neg hany] at henc
      simp only [Except.ok.injEq] at henc
      subst henc
      have hfne : ∀ pr ∈ m.fields, pr.1 ≠ k := forall_ne_of_not_any hany
      rw [dictSet_eq_append hany]
      have hlk : alookup (m.fields ++ [(k, JVal.num i)]) k = some (JVal.num i) := by
        rw [alookup_append_of_none (alookup_eq_none_of_forall hfne)]
        simp [alookup]
      unfold MessageProtocol.decodeInner recoverIdAndDict
      rw [htk]
      simp only [hlk, eraseKey_append_single hfne, hback]
      simp only [dataclass_from_dict, fieldsFromDict_self hkeys hnd]
      simp only [decodeSpecialCases]
      simp [hne1, hne2]

lemma ty_ne_empty_of_isMessage {t : TypeDecl} (h : t.isMessage = true) :
    t ≠ EmptyResponseDecl := by
  intro he
  rw [he] at h
  exact absurd h (by decide)

lemma ty_ne_error_of_isMessage {t : TypeDecl} (h : t.isMessage = true) :
    t ≠ ErrorResponseDecl := by
  intro he
  rw [he] at h
  exact absurd h (by decide)

end CodecLemmas

/-- C1 (amended).  For every registered message type and well-formed
instance, decoding the bytes produced by `encode_message` with
`decode_message` on the same protocol yields an instance equal
field-for-field to the original; the same holds for `encode_response`
followed by `decode_response` for every registered response type other
than the two reserved ones, whose decode is special-cased
(`EmptyResponse` decodes to no value and `ErrorResponse` decodes to a
locally raised error instead of an instance). -/
theorem C1_roundtrip_amended :
    (∀ (p : MessageProtocol) (m : Inst) (i : Int) (b : Bytes),
      m.wf → m.ty.isMessage = true →
      alookup p.message_ids_by_type m.ty = some i →
      alookup p.message_types_by_id i = some m.ty →
      p.encode_message m = .ok b →
      p.decode_message b = .ok m)
    ∧ (∀ (p : MessageProtocol) (r : Inst) (i : Int) (b : Bytes),
      r.wf → r.ty.isResponse = true →
      r.ty ≠ EmptyResponseDecl → r.ty ≠ ErrorResponseDecl →
      alookup p.response_ids_by_type r.ty = some i →
      alookup p.response_types_by_id i = some r.ty →
      p.encode_response r = .ok b →
      p.decode_response b = .ok (some r)) := by
  constructor
  · intro p m i b hwf hmsg hid hback henc
    have hinner := decodeInner_of_encodeInner hwf (ty_ne_empty_of_isMessage hmsg)
      (ty_ne_error_of_isMessage hmsg) hid hback henc
    unfold MessageProtocol.decode_message
    rw [hinner]
    simp [hmsg]
  · intro p r i b hwf hresp hne1 hne2 hid hback henc
    have hinner := decodeInner_of_encodeInner hwf hne1 hne2 hid hback henc
    unfold MessageProtocol.decode_response
    rw [hinner]
    simp [hresp]

/-- C1 witness: the round trip evaluated on the concrete `Ping` message
and `Pong` response of the sample protocol. -/
theorem C1_roundtrip_witness :
    pBasic.decode_message
        (JVal.obj [("m", JVal.obj [("msg", JVal.str "hello")]), ("t", JVal.num 0)])
      = .ok pingInst
    ∧ pBasic.decode_response
        (JVal.obj [("m", JVal.obj [("reply", JVal.str "pong")]), ("t", JVal.num 0)])
      = .ok (some pongInst) :=
  ⟨C1_roundtrip_amended.1 pBasic pingInst 0 _ (by constructor <;> first | rfl | decide)
      rfl rfl rfl rfl,
    C1_roundtrip_amended.2 pBasic pongInst 0 _ (by constructor <;> first | rfl | decide)
      rfl (by decide) (by decide) rfl rfl rfl⟩

/-- C1 counterexample: `EmptyResponse` is a registered response type of
every protocol, yet decoding the bytes produced by encoding an
`EmptyResponse` instance yields `None`, not an instance equal to the
original. -/
theorem C1_counterexample :
    pBasic.encode_response emptyInst = .ok (JVal.obj [("m", JVal.obj []), ("t", JVal.num (-2))])
    ∧ pBasic.decode_response (JVal.obj [("m", JVal.obj []), ("t", JVal.num (-2))]) = .ok none
    ∧ (Except.ok none : Except PyExc (Option Inst)) ≠ .ok (some emptyInst) := by
  refine ⟨rfl, rfl, ?_⟩
  intro h
  simp at h

lemma mem_of_alookup_eq_some {κ β : Type} [DecidableEq κ] {l : List (κ × β)} {k : κ} {v : β}
    (h : alookup l k = some v) : (k, v) ∈ l := by
  induction l with
  | nil => simp [alookup] at h
  | cons hd tl ih =>
    simp only [alookup] at h
    by_cases hk : hd.1 = k
    · rw [if_pos hk] at h
      obtain ⟨k0, v0⟩ := hd
      simp only at hk
      simp only [Option.some.injEq] at h
      rw [← hk, ← h]
      exact List.mem_cons_self _ _
    · rw [if_neg hk] at h
      exact List.mem_cons_of_mem _ (ih h)

/-- C9.  `encode_message` is deterministic: two structurally equal
well-formed instances of the same registered type (same class, same value
under each field key) produce byte-for-byte identical encodings on any
protocol. -/
theorem C9_encode_deterministic :
    ∀ (p : MessageProtocol) (m1 m2 : Inst),
      m1.wf → m2.wf → m1.ty = m2.ty →
      (∀ k, alookup m1.fields k = alookup m2.fields k) →
      p.encode_message m1 = p.encode_message m2 := by
  intro p m1 m2 h1 h2 hty hl
  have hfields : m1.fields = m2.fields := by
    refine alist_ext ?_ ?_ hl
    · rw [h1.1, h2.1, hty]
    · rw [h1.1]
      exact h1.2
  have heq : m1 = m2 := by
    cases m1
    cases m2
    simp only at hty hfields
    simp [hty, hfields]
  rw [heq]

/-- C9 witness: the determinism theorem applied at the concrete `Ping`
instance of the sample protocol. -/
theorem C9_encode_deterministic_witness :
    pBasic.encode_message pingInst = pBasic.encode_message pingInst :=
  C9_encode_deterministic pBasic pingInst pingInst (by decide) (by decide) rfl (fun _ => rfl)

lemma validateLoop_ok_of_covered {handlers : List (TypeDecl × Handler)} {warn_only : Bool}
    {l : List (TypeDecl × Int)}
    (h : ∀ pr ∈ l, pr.1.isResponse = false → (alookup handlers pr.1).isSome) :
    validateLoop handlers warn_only l = .ok () := by
  induction l with
  | nil => rfl
  | cons hd tl ih =>
    obtain ⟨t, tid⟩ := hd
    have htl : ∀ pr ∈ tl, pr.1.isResponse = false → (alookup handlers pr.1).isSome :=
      fun pr hpr => h pr (List.mem_cons_of_mem _ hpr)
    by_cases hr : t.isResponse = true
    · simp only [validateLoop, hr, if_pos]
      exact ih htl
    · have hs : (alookup handlers t).isSome :=
        h (t, tid) (List.mem_cons_self _ _) (by simpa using hr)
      simp only [validateLoop, hr]
      rw [if_neg (by simp [hr]), if_pos hs]
      exact ih htl

/-- C10.  `MessageReceiver.validate` skips every registered message type
that is also a `Response` subclass: as long as every registered message
type that is NOT a `Response` subclass has a handler, `validate` returns
normally in both `warn_only` modes, even when no handler is registered for
the `Response`-subclass message types. -/
theorem C10_validate_skips_response_subclasses :
    ∀ (p : MessageProtocol) (handlers : List (TypeDecl × Handler)) (warn_only : Bool),
      (∀ pr ∈ p.message_ids_by_type, pr.1.isResponse = false →
        (alookup handlers pr.1).isSome) →
      validate p handlers warn_only = .ok () := by
  intro p handlers w h
  unfold validate
  exact validateLoop_ok_of_covered h

/-- C10 witness: the `Hybrid` message type (a `Message` that is also a
`Response`) is registered in `pHybrid` with no handler, yet `validate`
passes in both modes once the plain message type `Ping` is handled. -/
theorem C10_validate_witness :
    validate pHybrid [(PingDecl, pingHandler)] true = .ok ()
    ∧ validate pHybrid [(PingDecl, pingHandler)] false = .ok () :=
  ⟨C10_validate_skips_response_subclasses pHybrid [(PingDecl, pingHandler)] true
      (by decide),
    C10_validate_skips_response_subclasses pHybrid [(PingDecl, pingHandler)] false
      (by decide)⟩

/-- C6.  Evaluation of the code at the failing input: the sample protocol
registers the plain message type `Ping`; with no handler registered,
`validate` with `warn_only = true` logs the warning and then still raises
`TypeError`, because the `raise` statement in the loop body is not guarded
by an `else` — it does not log-and-continue as the claim states. -/
theorem C6_validate_warn_only_still_raises :
    validate pBasic [] true = .error (.typeError "Protocol message not handled by receiver") :=
  rfl

/-- C7.  With every type in the protocol message registry a `Message`
subclass (which protocol construction guarantees), `register_handler`
succeeds exactly when the handler message type is registered, has no
handler yet, and the declared return-type set (with `None` mapped to
`EmptyResponse`) equals the message type `get_response_types()` set
symmetrically; it fails whenever any of the three conditions is
violated. -/
theorem C7_register_handler_conditions :
    ∀ (grt : TypeDecl → List TypeDecl) (p : MessageProtocol)
      (handlers : List (TypeDecl × Handler)) (h : Handler),
      (∀ pr ∈ p.message_ids_by_type, pr.1.isMessage = true) →
      (exceptIsOk (register_handler grt p handlers h) = true ↔
        ((alookup p.message_ids_by_type h.msgtype).isSome = true
          ∧ (alookup handlers h.msgtype).isSome = false
          ∧ setEqTD (mapReturns h.declaredReturns) (grt h.msgtype) = true)) := by
  intro grt p handlers h hmsg
  by_cases hM : h.msgtype.isMessage = true
  · cases halo : alookup p.message_ids_by_type h.msgtype with
    | none => simp [register_handler, hM, halo, exceptIsOk]
    | some mid =>
      cases hh : alookup handlers h.msgtype with
      | some hd => simp [register_handler, hM, halo, hh, exceptIsOk]
      | none =>
        by_cases hC : setEqTD (mapReturns h.declaredReturns) (grt h.msgtype) = true
        · simp [register_handler, hM, halo, hh, hC, exceptIsOk]
        · simp [register_handler, hM, halo, hh, hC, exceptIsOk]
  · have hA : alookup p.message_ids_by_type h.msgtype = none := by
      cases halo : alookup p.message_ids_by_type h.msgtype with
      | none => rfl
      | some v =>
        exact absurd (hmsg (h.msgtype, v) (mem_of_alookup_eq_some halo)) hM
    simp [register_handler, hM, hA, exceptIsOk]

/-- C7 witness: registering the `Ping` handler on the sample protocol
succeeds, and registering it twice fails. -/
theorem C7_register_handler_witness :
    exceptIsOk (register_handler grtSample pBasic [] pingHandler) = true
    ∧ exceptIsOk
        (register_handler grtSample pBasic [(PingDecl, pingHandler)] pingHandler) = false :=
  ⟨(C7_register_handler_conditions grtSample pBasic [] pingHandler (by decide)).mpr
      (by refine ⟨?_, ?_, ?_⟩ <;> rfl),
    by
      have hiff := C7_register_handler_conditions grtSample pBasic
        [(PingDecl, pingHandler)] pingHandler (by decide)
      by_contra hne
      have hok : exceptIsOk (register_handler grtSample pBasic
          [(PingDecl, pingHandler)] pingHandler) = true := by
        revert hne
        cases exceptIsOk (register_handler grtSample pBasic
          [(PingDecl, pingHandler)] pingHandler) <;> simp
      have := (hiff.mp hok).2.1
      exact absurd this (by decide)⟩

/-- A `type_key` configuration that does not collide with the wire field
names of `ErrorResponse` (`m` and `t`): either unset, or a key distinct
from both. -/
def TKSafe (p : MessageProtocol) : Prop :=
  p.type_key = none ∨ ∃ k, p.type_key = some k ∧ k ≠ "m" ∧ k ≠ "t"

lemma encode_errInst_ok_none {p : MessageProtocol} {eid : Int} (s : String) (t : ErrorType)
    (hid : alookup p.response_ids_by_type ErrorResponseDecl = some eid)
    (htk : p.type_key = none) :
    p.encode_response (errInst s t)
      = .ok (JVal.obj [("m", JVal.obj [("m", JVal.str s), ("t", JVal.num t.toWire)]),
          ("t", JVal.num eid)]) := by
  have h1 : ("m" : String) ≠ "t" := by decide
  simp [MessageProtocol.encode_response, MessageProtocol.encodeInner, errInst, hid, htk,
    dataclass_to_dict]

lemma encode_errInst_ok_some {p : MessageProtocol} {eid : Int} {k : String}
    (s : String) (t : ErrorType)
    (hid : alookup p.response_ids_by_type ErrorResponseDecl = some eid)
    (htk : p.type_key = some k) (hkm : k ≠ "m") (hkt : k ≠ "t") :
    p.encode_response (errInst s t)
      = .ok (JVal.obj [("m", JVal.str s), ("t", JVal.num t.toWire), (k, JVal.num eid)]) := by
  have h1 : ("m" : String) ≠ k := fun h => hkm h.symm
  have h2 : ("t" : String) ≠ k := fun h => hkt h.symm
  simp [MessageProtocol.encode_response, MessageProtocol.encodeInner, errInst, hid, htk,
    dataclass_to_dict, dictSet, h1, h2]

lemma encode_errInst_ok {p : MessageProtocol} {eid : Int} (s : String) (t : ErrorType)
    (hid : alookup p.response_ids_by_type ErrorResponseDecl = some eid)
    (htk : TKSafe p) :
    ∃ eb, p.encode_response (errInst s t) = .ok eb := by
  rcases htk with htk | ⟨k, htk, hkm, hkt⟩
  · exact ⟨_, encode_errInst_ok_none s t hid htk⟩
  · exact ⟨_, encode_errInst_ok_some s t hid htk hkm hkt⟩

lemma decodeSpecialCases_errFields (p : MessageProtocol) (s : String) (t : ErrorType) :
    decodeSpecialCases p "response"
        (Inst.mk ErrorResponseDecl [("m", JVal.str s), ("t", JVal.num t.toWire)])
      = .error (if p.preserve_clean_errors ∧ t = ErrorType.clean then .cleanError s
          else .remoteError s) := by
  unfold decodeSpecialCases
  cases t <;> cases hp : p.preserve_clean_errors <;>
    simp [ErrorType.toWire, alookup, EmptyResponseDecl, ErrorResponseDecl]

lemma decode_errBytes {p : MessageProtocol} {eid : Int} {s : String} {t : ErrorType} {b : Bytes}
    (hid : alookup p.response_ids_by_type ErrorResponseDecl = some eid)
    (hback : alookup p.response_types_by_id eid = some ErrorResponseDecl)
    (htk : TKSafe p)
    (henc : p.encode_response (errInst s t) = .ok b) :
    p.decode_response b
      = .error (if p.preserve_clean_errors ∧ t = ErrorType.clean then .cleanError s
          else .remoteError s) := by
  have hinner : p.decodeInner b p.response_types_by_id "response"
      = .error (if p.preserve_clean_errors ∧ t = ErrorType.clean then .cleanError s
          else .remoteError s) := by
    rcases htk with htk | ⟨k, htk, hkm, hkt⟩
    · rw [encode_errInst_ok_none s t hid htk] at henc
      simp only [Except.ok.injEq] at henc
      subst henc
      have ht2 : alookup [("m", JVal.obj [("m", JVal.str s), ("t", JVal.num t.toWire)]),
          ("t", JVal.num eid)] "t" = some (JVal.num eid) := rfl
      have hm2 : alookup [("m", JVal.obj [("m", JVal.str s), ("t", JVal.num t.toWire)]),
          ("t", JVal.num eid)] "m"
          = some (JVal.obj [("m", JVal.str s), ("t", JVal.num t.toWire)]) := rfl
      have hfd : dataclass_from_dict ErrorResponseDecl
          [("m", JVal.str s), ("t", JVal.num t.toWire)]
          = .ok (Inst.mk ErrorResponseDecl [("m", JVal.str s), ("t", JVal.num t.toWire)]) := rfl
      unfold MessageProtocol.decodeInner recoverIdAndDict
      rw [htk]
      simp only [ht2, hm2, hback, hfd]
      exact decodeSpecialCases_errFields p s t
    · rw [encode_errInst_ok_some s t hid htk hkm hkt] at henc
      simp only [Except.ok.injEq] at henc
      subst henc
      have hfne : ∀ pr ∈ [("m", JVal.str s), ("t", JVal.num t.toWire)],
          pr.1 ≠ k := by
        intro pr hpr
        simp only [List.mem_cons, List.not_mem_nil, or_false] at hpr
        rcases hpr with h | h
        · subst h
          exact fun hc => hkm hc.symm
        · subst h
          exact fun hc => hkt hc.symm
      have hsplit : [("m", JVal.str s), ("t", JVal.num t.toWire), (k, JVal.num eid)]
          = [("m", JVal.str s), ("t", JVal.num t.toWire)] ++ [(k, JVal.num eid)] := rfl
      have hlk : alookup ([("m", JVal.str s), ("t", JVal.num t.toWire)]
          ++ [(k, JVal.num eid)]) k = some (JVal.num eid) := by
        rw [alookup_append_of_none (alookup_eq_none_of_forall hfne)]
        simp [alookup]
      have hfd : dataclass_from_dict ErrorResponseDecl
          [("m", JVal.str s), ("t", JVal.num t.toWire)]
          = .ok (Inst.mk ErrorResponseDecl [("m", JVal.str s), ("t", JVal.num t.toWire)]) := rfl
      unfold MessageProtocol.decodeInner recoverIdAndDict
      rw [htk, hsplit]
      simp only [hlk, eraseKey_append_single hfne, hback, hfd]
      exact decodeSpecialCases_errFields p s t
  unfold MessageProtocol.decode_response
  rw [hinner]

/-- Every error-path response the receiver builds is an `ErrorResponse`
instance with some message string and error type. -/
lemma mkErrResponse_shape (p : MessageProtocol) (e : PyExc) :
    ∃ s t, mkErrResponse p e = errInst s t := by
  unfold mkErrResponse
  by_cases hc : e.isClean && p.preserve_clean_errors
  · rw [if_pos hc]
    exact ⟨_, _, rfl⟩
  · rw [if_neg hc]
    exact ⟨_, _, rfl⟩

/-- C2 (amended).  For every protocol whose response registry contains
`ErrorResponse` (protocol construction always ensures this) and whose
`type_key` is unset or distinct from the `ErrorResponse` wire keys `m`
and `t`, `handle_raw_message` never raises: for every handler table and
every input it returns encoded bytes, and whenever the `try` body fails
with any exception the returned bytes are the well-formed encoding of the
`ErrorResponse` built by the `except` block. -/
theorem C2_handle_never_raises_amended :
    ∀ (grt : TypeDecl → List TypeDecl) (p : MessageProtocol)
      (handlers : List (TypeDecl × Handler)) (msg : Bytes),
      (∃ eid, alookup p.response_ids_by_type ErrorResponseDecl = some eid) →
      TKSafe p →
      (∃ b, handle_raw_message grt p handlers msg = .ok b)
      ∧ (∀ e, tryHandleRawMessage grt p handlers msg = .error e →
          handle_raw_message grt p handlers msg = p.encode_response (mkErrResponse p e)) := by
  intro grt p handlers msg hid htk
  obtain ⟨eid, hid⟩ := hid
  constructor
  · cases htry : tryHandleRawMessage grt p handlers msg with
    | ok b =>
      refine ⟨b, ?_⟩
      unfold handle_raw_message
      rw [htry]
    | error e =>
      obtain ⟨s, t, hshape⟩ := mkErrResponse_shape p e
      obtain ⟨eb, heb⟩ := encode_errInst_ok s t hid htk
      refine ⟨eb, ?_⟩
      unfold handle_raw_message
      rw [htry]
      show p.encode_response (mkErrResponse p e) = .ok eb
      rw [hshape]
      exact heb
  · intro e htry
    unfold handle_raw_message
    rw [htry]

/-- C2 witness: the amended theorem applied to the sample protocol on an
undecodable input. -/
theorem C2_handle_never_raises_witness :
    ∃ b, handle_raw_message grtSample pBasic [] (JVal.num 0) = .ok b :=
  (C2_handle_never_raises_amended grtSample pBasic [] (JVal.num 0)
    ⟨-1, rfl⟩ (Or.inl rfl)).1

/-- C2 counterexample: a protocol whose `type_key` is the string `m`
collides with the `ErrorResponse` wire field `m`; on a failing input the
`except` block itself raises `RuntimeError` while encoding the
`ErrorResponse`, so `handle_raw_message` propagates an exception instead
of returning bytes. -/
theorem C2_counterexample :
    handle_raw_message grtSample pTypeKeyM [] (JVal.num 0)
      = .error (.runtimeError "Type-key found in msg") := rfl

/-- C4.  When the `try` body of `handle_raw_message` fails with a
non-clean exception: with `trusted_sender = false` the encoded
`ErrorResponse` carries exactly the fixed string and no exception detail —
two runs differing only in the exception produce identical output bytes —
while with `trusted_sender = true` it carries the formatted traceback of
the exception. -/
theorem C4_trusted_sender_error_text :
    ∀ (grt : TypeDecl → List TypeDecl) (p : MessageProtocol)
      (handlers : List (TypeDecl × Handler)) (msg : Bytes) (e : PyExc),
      tryHandleRawMessage grt p handlers msg = .error e →
      e.isClean = false →
      ((p.trusted_sender = false →
          handle_raw_message grt p handlers msg
            = p.encode_response (errInst "An unknown error has occurred." ErrorType.other))
        ∧ (p.trusted_sender = true →
          handle_raw_message grt p handlers msg
            = p.encode_response (errInst (format_exc e) ErrorType.other))
        ∧ (∀ (handlers2 : List (TypeDecl × Handler)) (e2 : PyExc),
            tryHandleRawMessage grt p handlers2 msg = .error e2 →
            e2.isClean = false → p.trusted_sender = false →
            handle_raw_message grt p handlers msg
              = handle_raw_message grt p handlers2 msg)) := by
  intro grt p handlers msg e htry hclean
  have hmk : ∀ e2 : PyExc, e2.isClean = false →
      mkErrResponse p e2
        = errInst (if p.trusted_sender then format_exc e2
            else "An unknown error has occurred.") ErrorType.other := by
    intro e2 h2
    unfold mkErrResponse
    rw [if_neg (by simp [h2])]
  refine ⟨?_, ?_, ?_⟩
  · intro htr
    unfold handle_raw_message
    rw [htry]
    show p.encode_response (mkErrResponse p e) = _
    rw [hmk e hclean, htr]
    simp
  · intro htr
    unfold handle_raw_message
    rw [htry]
    show p.encode_response (mkErrResponse p e) = _
    rw [hmk e hclean, htr]
    simp
  · intro handlers2 e2 htry2 hclean2 htr
    unfold handle_raw_message
    rw [htry, htry2]
    show p.encode_response (mkErrResponse p e) = p.encode_response (mkErrResponse p e2)
    rw [hmk e hclean, hmk e2 hclean2, htr]
    simp

/-- C4 witness: two different non-clean handler exceptions on the
untrusted sample protocol produce the identical fixed error text. -/
theorem C4_trusted_sender_witness :
    handle_raw_message grtSample pBasic
        [(PingDecl, raisingHandler (PyExc.valueError "secret detail"))]
        (JVal.obj [("m", JVal.obj [("msg", JVal.str "hello")]), ("t", JVal.num 0)])
      = handle_raw_message grtSample pBasic
        [(PingDecl, raisingHandler (PyExc.runtimeError "other secret"))]
        (JVal.obj [("m", JVal.obj [("msg", JVal.str "hello")]), ("t", JVal.num 0)]) :=
  ((C4_trusted_sender_error_text grtSample pBasic
      [(PingDecl, raisingHandler (PyExc.valueError "secret detail"))]
      (JVal.obj [("m", JVal.obj [("msg", JVal.str "hello")]), ("t", JVal.num 0)])
      (PyExc.valueError "secret detail") rfl rfl).2.2)
    [(PingDecl, raisingHandler (PyExc.runtimeError "other secret"))]
    (PyExc.runtimeError "other secret") rfl rfl rfl

lemma decode_message_ok_isMessage {p : MessageProtocol} {b : Bytes} {m : Inst}
    (h : p.decode_message b = .ok m) : m.ty.isMessage = true := by
  unfold MessageProtocol.decode_message at h
  cases hinner : p.decodeInner b p.message_types_by_id "message" with
  | error e =>
    rw [hinner] at h
    exact absurd h (by simp)
  | ok o =>
    rw [hinner] at h
    cases o with
    | none => exact absurd h (by simp)
    | some inst =>
      have h2 : (if inst.ty.isMessage = true then Except.ok inst
          else Except.error PyExc.assertionError) = Except.ok m := h
      by_cases hm : inst.ty.isMessage = true
      · rw [if_pos hm] at h2
        simp only [Except.ok.injEq] at h2
        rw [← h2]
        exact hm
      · rw [if_neg hm] at h2
        exact absurd h2 (by simp)

lemma tryHandle_of_raising_handler (grt : TypeDecl → List TypeDecl) {p : MessageProtocol}
    {handlers : List (TypeDecl × Handler)} {mb : Bytes} {m2 : Inst} {hd : Handler} {exc : PyExc}
    (hdec : p.decode_message mb = .ok m2)
    (hlook : alookup handlers m2.ty = some hd)
    (hrun : hd.run m2 = .error exc) :
    tryHandleRawMessage grt p handlers mb = .error exc := by
  have hmsg := decode_message_ok_isMessage hdec
  unfold tryHandleRawMessage
  rw [hdec]
  simp [hmsg, hlook, hrun]

/-- C3.  With sender and receiver on the same protocol, the transport
being the `handle_raw_message` of the receiver, and the registered handler for
the decoded message raising `exc`: when `exc` is the clean error kind and
`preserve_clean_errors` is true, `send` raises the same clean error kind
carrying the original message text; when `exc` is not clean, or
`preserve_clean_errors` is false, `send` raises the generic `RemoteError`
instead. -/
theorem C3_error_propagation :
    ∀ (grt : TypeDecl → List TypeDecl) (p : MessageProtocol)
      (handlers : List (TypeDecl × Handler)) (m m2 : Inst) (mb : Bytes)
      (hd : Handler) (exc : PyExc) (eid : Int),
      p.encode_message m = .ok mb →
      p.decode_message mb = .ok m2 →
      alookup handlers m2.ty = some hd →
      hd.run m2 = .error exc →
      alookup p.response_ids_by_type ErrorResponseDecl = some eid →
      alookup p.response_types_by_id eid = some ErrorResponseDecl →
      TKSafe p →
      ((exc.isClean = true → p.preserve_clean_errors = true →
          send grt p (handle_raw_message grt p handlers) m = .error (.cleanError exc.text))
        ∧ ((exc.isClean = false ∨ p.preserve_clean_errors = false) →
          send grt p (handle_raw_message grt p handlers) m
            = .error (.remoteError (if p.trusted_sender then format_exc exc
                else "An unknown error has occurred.")))) := by
  intro grt p handlers m m2 mb hd exc eid hencm hdec hlook hrun hid hback htk
  have htry := tryHandle_of_raising_handler grt hdec hlook hrun
  constructor
  · intro hclean hpres
    have hshape : mkErrResponse p exc = errInst exc.text ErrorType.clean := by
      unfold mkErrResponse
      rw [if_pos (by simp [hclean, hpres])]
    obtain ⟨eb, heb⟩ := encode_errInst_ok exc.text ErrorType.clean hid htk
    have hhandle : handle_raw_message grt p handlers mb = .ok eb := by
      unfold handle_raw_message
      rw [htry]
      show p.encode_response (mkErrResponse p exc) = .ok eb
      rw [hshape]
      exact heb
    have hdecr := decode_errBytes hid hback htk heb
    rw [if_pos (by simp [hpres])] at hdecr
    simp only [send, hencm, hhandle, hdecr]
  · intro hother
    have hshape : mkErrResponse p exc
        = errInst (if p.trusted_sender then format_exc exc
            else "An unknown error has occurred.") ErrorType.other := by
      unfold mkErrResponse
      rcases hother with h | h
      · rw [if_neg (by simp [h])]
      · rw [if_neg (by simp [h])]
    obtain ⟨eb, heb⟩ := encode_errInst_ok (if p.trusted_sender then format_exc exc
      else "An unknown error has occurred.") ErrorType.other hid htk
    have hhandle : handle_raw_message grt p handlers mb = .ok eb := by
      unfold handle_raw_message
      rw [htry]
      show p.encode_response (mkErrResponse p exc) = .ok eb
      rw [hshape]
      exact heb
    have hdecr := decode_errBytes hid hback htk heb
    rw [if_neg (by simp)] at hdecr
    simp only [send, hencm, hhandle, hdecr]

/-- C3 witness: on the sample protocol a handler raising the clean error
`no permission` makes `send` raise the same clean error with the same
text; on the `preserve_clean_errors = false` variant the same handler
error surfaces as the generic `RemoteError`; a non-clean handler error
also surfaces as `RemoteError`. -/
theorem C3_error_propagation_witness :
    send grtSample pBasic
        (handle_raw_message grtSample pBasic
          [(PingDecl, raisingHandler (PyExc.cleanError "no permission"))]) pingInst
      = .error (.cleanError "no permission")
    ∧ send grtSample pNoClean
        (handle_raw_message grtSample pNoClean
          [(PingDecl, raisingHandler (PyExc.cleanError "no permission"))]) pingInst
      = .error (.remoteError "An unknown error has occurred.")
    ∧ send grtSample pBasic
        (handle_raw_message grtSample pBasic
          [(PingDecl, raisingHandler (PyExc.valueError "boom"))]) pingInst
      = .error (.remoteError "An unknown error has occurred.") :=
  ⟨(C3_error_propagation grtSample pBasic
      [(PingDecl, raisingHandler (PyExc.cleanError "no permission"))]
      pingInst pingInst _ (raisingHandler (PyExc.cleanError "no permission"))
      (PyExc.cleanError "no permission") (-1)
      rfl rfl rfl rfl rfl rfl (Or.inl rfl)).1 rfl rfl,
    (C3_error_propagation grtSample pNoClean
      [(PingDecl, raisingHandler (PyExc.cleanError "no permission"))]
      pingInst pingInst _ (raisingHandler (PyExc.cleanError "no permission"))
      (PyExc.cleanError "no permission") (-1)
      rfl rfl rfl rfl rfl rfl (Or.inl rfl)).2 (Or.inr rfl),
    (C3_error_propagation grtSample pBasic
      [(PingDecl, raisingHandler (PyExc.valueError "boom"))]
      pingInst pingInst _ (raisingHandler (PyExc.valueError "boom"))
      (PyExc.valueError "boom") (-1)
      rfl rfl rfl rfl rfl rfl (Or.inl rfl)).2 (Or.inl rfl)⟩

section InitLemmas

/-- The id carried by the last (and, for unique keys, the only) entry for
a given type in a registration list: the binding Python dictionary
assignment leaves in `response_ids_by_type`. -/
def lastAssign (l : List (Int × TypeDecl)) (t : TypeDecl) : Option Int :=
  match l with
  | [] => none
  | (i, ty) :: rest =>
    match lastAssign rest t with
    | some j => some j
    | none => if ty = t then some i else none

lemma lastAssign_eq_none {l : List (Int × TypeDecl)} {t : TypeDecl}
    (h : ∀ pr ∈ l, pr.2 ≠ t) : lastAssign l t = none := by
  induction l with
  | nil => rfl
  | cons hd tl ih =>
    obtain ⟨i, ty⟩ := hd
    have hty : ty ≠ t := h (i, ty) (List.mem_cons_self _ _)
    simp only [lastAssign, ih (fun pr hpr => h pr (List.mem_cons_of_mem _ hpr)), if_neg hty]

lemma alookup_foldl_dictSet (l : List (Int × TypeDecl)) (b : List (TypeDecl × Int))
    (t : TypeDecl) :
    alookup (l.foldl (fun acc pr => dictSet pr.2 pr.1 acc) b) t
      = match lastAssign l t with
        | some j => some j
        | none => alookup b t := by
  induction l generalizing b with
  | nil => rfl
  | cons hd tl ih =>
    obtain ⟨i, ty⟩ := hd
    simp only [List.foldl_cons, lastAssign]
    rw [ih]
    cases hc : lastAssign tl t with
    | some j => rfl
    | none =>
      rw [alookup_dictSet]
      by_cases ht : t = ty
      · rw [if_pos ht, if_pos (by rw [ht])]
      · rw [if_neg ht, if_neg (fun h : ty = t => ht h.symm)]

lemma regMessages_ok {l a : List (Int × TypeDecl)} {b : List (TypeDecl × Int)}
    {x : List (Int × TypeDecl)} {y : List (TypeDecl × Int)}
    (h : regMessages a b l = .ok (x, y)) :
    x = a ++ l ∧ y = l.foldl (fun acc pr => dictSet pr.2 pr.1 acc) b
      ∧ ∀ pr ∈ l, 0 ≤ pr.1 := by
  induction l generalizing a b with
  | nil =>
    unfold regMessages at h
    simp only [Except.ok.injEq, Prod.mk.injEq] at h
    simp [h.1, h.2]
  | cons hd tl ih =>
    obtain ⟨i, t⟩ := hd
    unfold regMessages at h
    by_cases h1 : i < 0
    · rw [if_pos h1] at h
      exact absurd h (by simp)
    · rw [if_neg h1] at h
      by_cases h2 : ¬ t.isMessage
      · rw [if_pos h2] at h
        exact absurd h (by simp)
      · rw [if_neg h2] at h
        by_cases h3 : (alookup a i).isSome
        · rw [if_pos h3] at h
          exact absurd h (by simp)
        · rw [if_neg h3] at h
          obtain ⟨hx, hy, hge⟩ := ih h
          refine ⟨by rw [hx, List.append_assoc]; rfl, by rw [hy, List.foldl_cons], ?_⟩
          intro pr hpr
          rcases List.mem_cons.mp hpr with hpr | hpr
          · rw [hpr]
            exact le_of_not_lt h1
          · exact hge pr hpr

lemma regResponses_ok {l a : List (Int × TypeDecl)} {b : List (TypeDecl × Int)}
    {x : List (Int × TypeDecl)} {y : List (TypeDecl × Int)}
    (h : regResponses a b l = .ok (x, y)) :
    x = a ++ l ∧ y = l.foldl (fun acc pr => dictSet pr.2 pr.1 acc) b
      ∧ ∀ pr ∈ l, 0 ≤ pr.1 := by
  induction l generalizing a b with
  | nil =>
    unfold regResponses at h
    simp only [Except.ok.injEq, Prod.mk.injEq] at h
    simp [h.1, h.2]
  | cons hd tl ih =>
    obtain ⟨i, t⟩ := hd
    unfold regResponses at h
    by_cases h1 : i < 0
    · rw [if_pos h1] at h
      exact absurd h (by simp)
    · rw [if_neg h1] at h
      by_cases h2 : ¬ t.isResponse
      · rw [if_pos h2] at h
        exact absurd h (by simp)
      · rw [if_neg h2] at h
        by_cases h3 : (alookup a i).isSome
        · rw [if_pos h3] at h
          exact absurd h (by simp)
        · rw [if_neg h3] at h
          obtain ⟨hx, hy, hge⟩ := ih h
          refine ⟨by rw [hx, List.append_assoc]; rfl, by rw [hy, List.foldl_cons], ?_⟩
          intro pr hpr
          rcases List.mem_cons.mp hpr with hpr | hpr
          · rw [hpr]
            exact le_of_not_lt h1
          · exact hge pr hpr

lemma alookup_neg_of_nonneg {l : List (Int × TypeDecl)} {j : Int}
    (hge : ∀ pr ∈ l, 0 ≤ pr.1) (hj : j < 0) : alookup l j = none := by
  apply alookup_eq_none_of_forall
  intro pr hpr hk
  have := hge pr hpr
  omega

end InitLemmas

/-- C8 (amended), part relating construction failure to duplicate names
among the registered message types only: whenever the distinct base names
of the message registry keys are fewer than the message entries (two
registered message types share a `__name__`), construction fails; and
a construction whose response registry contains two distinct types with
the same base name succeeds — the uniqueness check covers only message
type names, never response types and never message-versus-response
collisions. -/
theorem C8_name_uniqueness_amended :
    (∀ (grt : TypeDecl → List TypeDecl) (mts rts : List (Int × TypeDecl))
      (tk : Option String) (pc lg ts : Bool),
      (msgTypeNames (mts.foldl (fun acc pr => dictSet pr.2 pr.1 acc) [])).length
          ≠ mts.length →
      exceptIsOk (MessageProtocol.init grt mts rts tk pc lg ts) = false)
    ∧ exceptIsOk (MessageProtocol.init grtSample [(0, PingDecl)]
        [(0, PongDecl), (1, DupADecl), (2, DupBDecl)] none true true false) = true
    ∧ DupADecl.name = DupBDecl.name ∧ DupADecl ≠ DupBDecl := by
  refine ⟨?_, rfl, rfl, by decide⟩
  intro grt mts rts tk pc lg ts hdup
  cases h1 : regMessages [] [] mts with
  | error e => simp [MessageProtocol.init, h1, exceptIsOk]
  | ok mpair =>
    obtain ⟨mi, mt⟩ := mpair
    have hmt : mt = mts.foldl (fun acc pr => dictSet pr.2 pr.1 acc) [] :=
      (regMessages_ok h1).2.1
    rw [← hmt] at hdup
    cases h2 : regResponses [] [] rts with
    | error e => simp [MessageProtocol.init, h1, h2, exceptIsOk]
    | ok rpair =>
      obtain ⟨ri, rt⟩ := rpair
      cases h3 : regIfNot ErrorResponseDecl (-1) ri rt with
      | error e => simp [MessageProtocol.init, h1, h2, h3, exceptIsOk]
      | ok rpair2 =>
        obtain ⟨ri2, rt2⟩ := rpair2
        cases h4 : regIfNot EmptyResponseDecl (-2) ri2 rt2 with
        | error e => simp [MessageProtocol.init, h1, h2, h3, h4, exceptIsOk]
        | ok rpair3 =>
          obtain ⟨ri3, rt3⟩ := rpair3
          cases h5 : checkMsgResponseLists grt mts with
          | error e => simp [MessageProtocol.init, h1, h2, h3, h4, h5, exceptIsOk]
          | ok u =>
            cases h6 : checkResponseCoverage rt3
                ((mts.flatMap (fun pr => grt pr.2)).dedup) with
            | error e => simp [MessageProtocol.init, h1, h2, h3, h4, h5, h6, exceptIsOk]
            | ok u2 =>
              simp [MessageProtocol.init, h1, h2, h3, h4, h5, h6, hdup, exceptIsOk]

/-- C8 witness: the failure half of the amended theorem applied to two
distinct message classes that share the base name `Ping`. -/
theorem C8_name_uniqueness_witness :
    exceptIsOk (MessageProtocol.init grtSample [(0, PingDecl), (1, PingCloneDecl)]
      [(0, PongDecl)] none true true false) = false :=
  C8_name_uniqueness_amended.1 grtSample [(0, PingDecl), (1, PingCloneDecl)]
    [(0, PongDecl)] none true true false (by decide)

/-- C8 counterexample: a protocol whose registry union contains three
name collisions — two distinct response classes both named `Dup`, and a
response class named `Ping` colliding with the message class `Ping` —
constructs successfully, refuting the claim that any shared base name
across the union of the two registries is a construction-time failure. -/
theorem C8_counterexample :
    exceptIsOk (MessageProtocol.init grtSample [(0, PingDecl)]
        [(0, PongDecl), (1, DupADecl), (2, DupBDecl), (3, PingNameRespDecl)]
        none true true false) = true
    ∧ DupADecl.name = DupBDecl.name ∧ DupADecl ≠ DupBDecl
    ∧ PingNameRespDecl.name = PingDecl.name ∧ PingNameRespDecl ≠ PingDecl :=
  ⟨rfl, rfl, by decide, rfl, by decide⟩

lemma encode_emptyInst_ok_none {p : MessageProtocol} {eid : Int}
    (hid : alookup p.response_ids_by_type EmptyResponseDecl = some eid)
    (htk : p.type_key = none) :
    p.encode_response emptyInst = .ok (JVal.obj [("m", JVal.obj []), ("t", JVal.num eid)]) := by
  simp [MessageProtocol.encode_response, MessageProtocol.encodeInner, emptyInst, hid, htk,
    dataclass_to_dict]

lemma encode_emptyInst_ok_some {p : MessageProtocol} {eid : Int} {k : String}
    (hid : alookup p.response_ids_by_type EmptyResponseDecl = some eid)
    (htk : p.type_key = some k) :
    p.encode_response emptyInst = .ok (JVal.obj [(k, JVal.num eid)]) := by
  simp [MessageProtocol.encode_response, MessageProtocol.encodeInner, emptyInst, hid, htk,
    dataclass_to_dict, dictSet]

lemma decode_emptyBytes_none {p : MessageProtocol} {eid : Int}
    (hback : alookup p.response_types_by_id eid = some EmptyResponseDecl)
    (htk : p.type_key = none) :
    p.decode_response (JVal.obj [("m", JVal.obj []), ("t", JVal.num eid)]) = .ok none := by
  have ht : alookup [("m", JVal.obj ([] : List (String × JVal))), ("t", JVal.num eid)] "t"
      = some (JVal.num eid) := rfl
  have hm : alookup [("m", JVal.obj ([] : List (String × JVal))), ("t", JVal.num eid)] "m"
      = some (JVal.obj []) := rfl
  unfold MessageProtocol.decode_response MessageProtocol.decodeInner recoverIdAndDict
  rw [htk]
  simp only [ht, hm, hback]
  rfl

lemma decode_emptyBytes_some {p : MessageProtocol} {eid : Int} {k : String}
    (hback : alookup p.response_types_by_id eid = some EmptyResponseDecl)
    (htk : p.type_key = some k) :
    p.decode_response (JVal.obj [(k, JVal.num eid)]) = .ok none := by
  have hk : alookup [(k, JVal.num eid)] k = some (JVal.num eid) := by
    simp [alookup]
  have he : eraseKey [(k, JVal.num eid)] k = [] := by
    simp [eraseKey]
  unfold MessageProtocol.decode_response MessageProtocol.decodeInner recoverIdAndDict
  rw [htk]
  simp only [hk, he, hback]
  rfl

/-- C5.  For every successfully constructed protocol: when neither
reserved type was passed explicitly, `ErrorResponse` is auto-registered
at id -1 and `EmptyResponse` at id -2 in both registry directions, an
`ErrorResponse`/`EmptyResponse` instance encodes at that id (for a
non-colliding `type_key`) and the resulting bytes decode with the
documented behaviour of those types (`ErrorResponse` raises the
transported error, `EmptyResponse` decodes to no value); and when the
caller did register either type explicitly (necessarily at an id >= 0),
that registration is kept — the type still maps to that explicit id and
the reserved negative id stays unbound. -/
theorem C5_autoregistration :
    ∀ (grt : TypeDecl → List TypeDecl) (mts rts : List (Int × TypeDecl))
      (tk : Option String) (pc lg ts : Bool) (p : MessageProtocol),
      MessageProtocol.init grt mts rts tk pc lg ts = .ok p →
      (((∀ pr ∈ rts, pr.2 ≠ ErrorResponseDecl) ∧ (∀ pr ∈ rts, pr.2 ≠ EmptyResponseDecl)) →
        (alookup p.response_types_by_id (-1) = some ErrorResponseDecl
          ∧ alookup p.response_ids_by_type ErrorResponseDecl = some (-1)
          ∧ alookup p.response_types_by_id (-2) = some EmptyResponseDecl
          ∧ alookup p.response_ids_by_type EmptyResponseDecl = some (-2)
          ∧ (TKSafe p → ∀ s t, ∃ eb, p.encode_response (errInst s t) = .ok eb
              ∧ p.decode_response eb
                  = .error (if p.preserve_clean_errors ∧ t = ErrorType.clean
                      then .cleanError s else .remoteError s))
          ∧ (∃ nb, p.encode_response emptyInst = .ok nb ∧ p.decode_response nb = .ok none)))
      ∧ (∀ j, lastAssign rts ErrorResponseDecl = some j →
          alookup p.response_ids_by_type ErrorResponseDecl = some j
            ∧ alookup p.response_types_by_id (-1) = none)
      ∧ (∀ j, lastAssign rts EmptyResponseDecl = some j →
          alookup p.response_ids_by_type EmptyResponseDecl = some j
            ∧ alookup p.response_types_by_id (-2) = none) := by
  intro grt mts rts tk pc lg ts p hinit
  unfold MessageProtocol.init at hinit
  cases h1 : regMessages [] [] mts with
  | error e =>
    rw [h1] at hinit
    exact absurd hinit (by simp)
  | ok mpair =>
  obtain ⟨mi, mt⟩ := mpair
  simp only [h1] at hinit
  cases h2 : regResponses [] [] rts with
  | error e =>
    rw [h2] at hinit
    exact absurd hinit (by simp)
  | ok rpair =>
  obtain ⟨ri, rt⟩ := rpair
  simp only [h2] at hinit
  obtain ⟨hriRaw, hrt, hge⟩ := regResponses_ok h2
  have hri : ri = rts := by simpa using hriRaw
  cases h3 : regIfNot ErrorResponseDecl (-1) ri rt with
  | error e =>
    rw [h3] at hinit
    exact absurd hinit (by simp)
  | ok rpair2 =>
  obtain ⟨ri2, rt2⟩ := rpair2
  simp only [h3] at hinit
  cases h4 : regIfNot EmptyResponseDecl (-2) ri2 rt2 with
  | error e =>
    rw [h4] at hinit
    exact absurd hinit (by simp)
  | ok rpair3 =>
  obtain ⟨ri3, rt3⟩ := rpair3
  simp only [h4] at hinit
  cases h5 : checkMsgResponseLists grt mts with
  | error e =>
    rw [h5] at hinit
    exact absurd hinit (by simp)
  | ok u =>
  simp only [h5] at hinit
  cases h6 : checkResponseCoverage rt3 ((mts.flatMap (fun pr => grt pr.2)).dedup) with
  | error e =>
    rw [h6] at hinit
    exact absurd hinit (by simp)
  | ok u2 =>
  simp only [h6] at hinit
  by_cases hname : (msgTypeNames mt).length ≠ mts.length
  · rw [if_pos hname] at hinit
    exact absurd hinit (by simp)
  · rw [if_neg hname] at hinit
    simp only [Except.ok.injEq] at hinit
    have hp1 : p.response_types_by_id = ri3 := by rw [← hinit]
    have hp2 : p.response_ids_by_type = rt3 := by rw [← hinit]
    have hriNeg1 : alookup ri (-1) = none := by
      rw [hri]
      exact alookup_neg_of_nonneg hge (by norm_num)
    have hriNeg2 : alookup ri (-2) = none := by
      rw [hri]
      exact alookup_neg_of_nonneg hge (by norm_num)
    refine ⟨?_, ?_, ?_⟩
    · rintro ⟨hA1, hA2⟩
      have hErrNone : alookup rt ErrorResponseDecl = none := by
        rw [hrt, alookup_foldl_dictSet, lastAssign_eq_none hA1]
        rfl
      have hEmpNone : alookup rt EmptyResponseDecl = none := by
        rw [hrt, alookup_foldl_dictSet, lastAssign_eq_none hA2]
        rfl
      have h3eq : ri2 = ri ++ [(-1, ErrorResponseDecl)]
          ∧ rt2 = rt ++ [(ErrorResponseDecl, -1)] := by
        unfold regIfNot at h3
        rw [hErrNone, hriNeg1] at h3
        simp only [Option.isSome_none, Bool.false_eq_true, if_false, Except.ok.injEq,
          Prod.mk.injEq] at h3
        exact ⟨h3.1.symm, h3.2.symm⟩
      obtain ⟨hri2, hrt2⟩ := h3eq
      have hri2Neg2 : alookup ri2 (-2) = none := by
        rw [hri2, alookup_append_of_none hriNeg2]
        simp [alookup]
      have hrt2Emp : alookup rt2 EmptyResponseDecl = none := by
        rw [hrt2, alookup_append_of_none hEmpNone]
        simp [alookup]
        decide
      have h4eq : ri3 = ri2 ++ [(-2, EmptyResponseDecl)]
          ∧ rt3 = rt2 ++ [(EmptyResponseDecl, -2)] := by
        unfold regIfNot at h4
        rw [hrt2Emp, hri2Neg2] at h4
        simp only [Option.isSome_none, Bool.false_eq_true, if_false, Except.ok.injEq,
          Prod.mk.injEq] at h4
        exact ⟨h4.1.symm, h4.2.symm⟩
      obtain ⟨hri3, hrt3⟩ := h4eq
      have hlook1 : alookup ri3 (-1) = some ErrorResponseDecl := by
        rw [hri3]
        apply alookup_append_of_some
        rw [hri2, alookup_append_of_none hriNeg1]
        simp [alookup]
      have hlook2 : alookup rt3 ErrorResponseDecl = some (-1) := by
        rw [hrt3]
        apply alookup_append_of_some
        rw [hrt2, alookup_append_of_none hErrNone]
        simp [alookup]
      have hlook3 : alookup ri3 (-2) = some EmptyResponseDecl := by
        rw [hri3, alookup_append_of_none hri2Neg2]
        simp [alookup]
      have hlook4 : alookup rt3 EmptyResponseDecl = some (-2) := by
        rw [hrt3, alookup_append_of_none hrt2Emp]
        simp [alookup]
      have hlook1p : alookup p.response_types_by_id (-1) = some ErrorResponseDecl := by
        rw [hp1]
        exact hlook1
      have hlook2p : alookup p.response_ids_by_type ErrorResponseDecl = some (-1) := by
        rw [hp2]
        exact hlook2
      have hlook3p : alookup p.response_types_by_id (-2) = some EmptyResponseDecl := by
        rw [hp1]
        exact hlook3
      have hlook4p : alookup p.response_ids_by_type EmptyResponseDecl = some (-2) := by
        rw [hp2]
        exact hlook4
      refine ⟨hlook1p, hlook2p, hlook3p, hlook4p, ?_, ?_⟩
      · intro htk s t
        rcases htk with htk | ⟨k, htk, hkm, hkt⟩
        · exact ⟨_, encode_errInst_ok_none s t hlook2p htk,
            decode_errBytes hlook2p hlook1p (Or.inl htk)
              (encode_errInst_ok_none s t hlook2p htk)⟩
        · exact ⟨_, encode_errInst_ok_some s t hlook2p htk hkm hkt,
            decode_errBytes hlook2p hlook1p (Or.inr ⟨k, htk, hkm, hkt⟩)
              (encode_errInst_ok_some s t hlook2p htk hkm hkt)⟩
      · cases htk : p.type_key with
        | none =>
          exact ⟨_, encode_emptyInst_ok_none hlook4p htk, decode_emptyBytes_none hlook3p htk⟩
        | some k =>
          exact ⟨_, encode_emptyInst_ok_some hlook4p htk, decode_emptyBytes_some hlook3p htk⟩
    · intro j hc
      have hErrSome : alookup rt ErrorResponseDecl = some j := by
        rw [hrt, alookup_foldl_dictSet, hc]
      have h3eq : ri2 = ri ∧ rt2 = rt := by
        unfold regIfNot at h3
        rw [hErrSome] at h3
        simp only [Option.isSome_some, if_true, Except.ok.injEq, Prod.mk.injEq] at h3
        exact ⟨h3.1.symm, h3.2.symm⟩
      obtain ⟨hri2, hrt2⟩ := h3eq
      cases hEmpL : alookup rt2 EmptyResponseDecl with
      | some j2 =>
        have h4eq : ri3 = ri2 ∧ rt3 = rt2 := by
          unfold regIfNot at h4
          rw [hEmpL] at h4
          simp only [Option.isSome_some, if_true, Except.ok.injEq, Prod.mk.injEq] at h4
          exact ⟨h4.1.symm, h4.2.symm⟩
        obtain ⟨hri3, hrt3⟩ := h4eq
        constructor
        · rw [hp2, hrt3, hrt2]
          exact hErrSome
        · rw [hp1, hri3, hri2, hri]
          exact alookup_neg_of_nonneg hge (by norm_num)
      | none =>
        have hri2Neg2 : alookup ri2 (-2) = none := by
          rw [hri2, hri]
          exact alookup_neg_of_nonneg hge (by norm_num)
        have h4eq : ri3 = ri2 ++ [(-2, EmptyResponseDecl)]
            ∧ rt3 = rt2 ++ [(EmptyResponseDecl, -2)] := by
          unfold regIfNot at h4
          rw [hEmpL, hri2Neg2] at h4
          simp only [Option.isSome_none, Bool.false_eq_true, if_false, Except.ok.injEq,
            Prod.mk.injEq] at h4
          exact ⟨h4.1.symm, h4.2.symm⟩
        obtain ⟨hri3, hrt3⟩ := h4eq
        constructor
        · rw [hp2, hrt3]
          apply alookup_append_of_some
          rw [hrt2]
          exact hErrSome
        · have hri2Neg1 : alookup ri2 (-1) = none := by
            rw [hri2]
            exact hriNeg1
          rw [hp1, hri3, alookup_append_of_none hri2Neg1]
          simp [alookup]
    · intro j hc
      have hEmpSome : alookup rt EmptyResponseDecl = some j := by
        rw [hrt, alookup_foldl_dictSet, hc]
      cases hErrL : alookup rt ErrorResponseDecl with
      | some j1 =>
        have h3eq : ri2 = ri ∧ rt2 = rt := by
          unfold regIfNot at h3
          rw [hErrL] at h3
          simp only [Option.isSome_some, if_true, Except.ok.injEq, Prod.mk.injEq] at h3
          exact ⟨h3.1.symm, h3.2.symm⟩
        obtain ⟨hri2, hrt2⟩ := h3eq
        have hEmpL : alookup rt2 EmptyResponseDecl = some j := by
          rw [hrt2]
          exact hEmpSome
        have h4eq : ri3 = ri2 ∧ rt3 = rt2 := by
          unfold regIfNot at h4
          rw [hEmpL] at h4
          simp only [Option.isSome_some, if_true, Except.ok.injEq, Prod.mk.injEq] at h4
          exact ⟨h4.1.symm, h4.2.symm⟩
        obtain ⟨hri3, hrt3⟩ := h4eq
        constructor
        · rw [hp2, hrt3, hrt2]
          exact hEmpSome
        · rw [hp1, hri3, hri2, hri]
          exact alookup_neg_of_nonneg hge (by norm_num)
      | none =>
        have h3eq : ri2 = ri ++ [(-1, ErrorResponseDecl)]
            ∧ rt2 = rt ++ [(ErrorResponseDecl, -1)] := by
          unfold regIfNot at h3
          rw [hErrL, hriNeg1] at h3
          simp only [Option.isSome_none, Bool.false_eq_true, if_false, Except.ok.injEq,
            Prod.mk.injEq] at h3
          exact ⟨h3.1.symm, h3.2.symm⟩
        obtain ⟨hri2, hrt2⟩ := h3eq
        have hEmpL : alookup rt2 EmptyResponseDecl = some j := by
          rw [hrt2]
          exact alookup_append_of_some hEmpSome
        have h4eq : ri3 = ri2 ∧ rt3 = rt2 := by
          unfold regIfNot at h4
          rw [hEmpL] at h4
          simp only [Option.isSome_some, if_true, Except.ok.injEq, Prod.mk.injEq] at h4
          exact ⟨h4.1.symm, h4.2.symm⟩
        obtain ⟨hri3, hrt3⟩ := h4eq
        constructor
        · rw [hp2, hrt3, hEmpL]
        · rw [hp1, hri3, hri2,
            alookup_append_of_none (by rw [hri]; exact alookup_neg_of_nonneg hge (by norm_num))]
          simp [alookup]

/-- C5 witness: the theorem applied to the sample protocol (no explicit
reserved registrations) and to a protocol registering `ErrorResponse`
explicitly at id 5. -/
theorem C5_autoregistration_witness :
    (alookup pBasic.response_types_by_id (-1) = some ErrorResponseDecl
      ∧ alookup pBasic.response_ids_by_type ErrorResponseDecl = some (-1)
      ∧ alookup pBasic.response_types_by_id (-2) = some EmptyResponseDecl
      ∧ alookup pBasic.response_ids_by_type EmptyResponseDecl = some (-2))
    ∧ (alookup pExplicitErr.response_ids_by_type ErrorResponseDecl = some 5
      ∧ alookup pExplicitErr.response_types_by_id (-1) = none) :=
  ⟨(let h := (C5_autoregistration grtSample [(0, PingDecl)] [(0, PongDecl)]
      none true true false pBasic rfl).1 (by decide)
    ⟨h.1, h.2.1, h.2.2.1, h.2.2.2.1⟩),
    (C5_autoregistration grtSample [(0, PingDecl)] [(5, ErrorResponseDecl), (0, PongDecl)]
      none true true false pExplicitErr rfl).2.1 5 (by decide)⟩

end EfroMessage
